import Mathlib

/-!
Verification of the PlaybookAssistant core against its specification.

This file shallow-embeds the core components of the repository:
the in-memory TTL cache (`src/utils/cache.ts`), the fixed-window rate
limiter (`src/utils/rate-limiter.ts`), the database client
(`src/lib/database.ts`), the Gemini client wrappers (`src/lib/gemini.ts`),
the cached embedding endpoint (`src/api/ai/embedding.ts`), the semantic
search pipeline (`src/api/ai/search.ts`), the recommendation pipeline
(`src/api/ai/recommendations.ts`) and the ClickUp synchronizer
(`src/api/clickup/sync.ts`).

External collaborators (the Gemini API, the ClickUp API, the Postgres
store) are modelled as oracle functions; stateful singletons become
explicit state passing; thrown JS exceptions become `Except`; JS numbers
for timestamps become `Nat` (milliseconds) and embedding/score floats
become `ℚ` (the spec disclaims exact float ranking parity).
-/

/-! ### TTL cache (`src/utils/cache.ts`, class `Cache`) -/

/-- One cache slot: `{value, expiresAt}` as in `CacheEntry<T>`. -/
structure CacheEntry (V : Type) where
  value : V
  expiresAt : Nat
deriving DecidableEq

/-- The cache's backing `Map<string, CacheEntry<T>>`. -/
def CacheMap (V : Type) : Type := String → Option (CacheEntry V)

/-- `Cache.get`: absent gives `null`; an entry with `Date.now() > expiresAt`
is deleted and treated as absent; otherwise the value is returned.  The
possibly-updated map is returned alongside the read value. -/
def cacheGet (m : CacheMap V) (key : String) (now : Nat) :
    Option V × CacheMap V :=
  match m key with
  | none => (none, m)
  | some e =>
    if now > e.expiresAt then
      (none, fun k => if k = key then none else m k)
    else
      (some e.value, m)

/-- `Cache.set`: stores the value with `expiresAt = Date.now() + ttl`. -/
def cacheSet (m : CacheMap V) (key : String) (v : V) (now ttl : Nat) :
    CacheMap V :=
  fun k => if k = key then some ⟨v, now + ttl⟩ else m k

/-- An optional cache slot is unexpired (or absent) at time `now`:
mirrors the read-side test `Date.now() > entry.expiresAt` being false. -/
def freshAt (o : Option (CacheEntry V)) (now : Nat) : Bool :=
  match o with
  | none => true
  | some e => decide (now ≤ e.expiresAt)

theorem cacheGet_hit (m : CacheMap V) (key : String) (now : Nat)
    (e : CacheEntry V) (hm : m key = some e)
    (hfresh : freshAt (m key) now = true) :
    cacheGet m key now = (some e.value, m) := by
  unfold cacheGet
  rw [hm]
  unfold freshAt at hfresh
  rw [hm] at hfresh
  simp only [decide_eq_true_eq] at hfresh
  simp [Nat.not_lt.mpr hfresh]

/-! ### Rate limiter (`src/utils/rate-limiter.ts`, class `RateLimiter`) -/

/-- `RateLimitConfig` from the source. -/
structure RateLimitConfig where
  windowMs : Nat
  maxRequests : Nat
deriving DecidableEq

/-- `RateLimitEntry` from the source. -/
structure RateLimitEntry where
  count : Nat
  resetTime : Nat
deriving DecidableEq

/-- The record returned by `checkLimit`.  `remainingRequests` is an `Int`
because the source computes `config.maxRequests - 1` / `- entry.count`
with JS numbers (which can go negative when `maxRequests = 0`). -/
structure CheckResult where
  allowed : Bool
  remainingRequests : Int
  resetTime : Nat
deriving DecidableEq

/-- The limiter's two maps: `limits` and `configs`. -/
structure RateLimiterState where
  limits : String → Option RateLimitEntry
  configs : String → Option RateLimitConfig

/-- `RateLimiter.checkLimit(key, identifier)` at time `now = Date.now()`.
`none` models the `throw` on a missing configuration. -/
def checkLimit (st : RateLimiterState) (key identifier : String)
    (now : Nat) : Option (CheckResult × RateLimiterState) :=
  match st.configs key with
  | none => none
  | some config =>
    let fullKey := key ++ ":" ++ identifier
    match st.limits fullKey with
    | none =>
      let newEntry : RateLimitEntry := ⟨1, now + config.windowMs⟩
      some (⟨true, (config.maxRequests : Int) - 1, newEntry.resetTime⟩,
        { st with
          limits := fun k => if k = fullKey then some newEntry else st.limits k })
    | some entry =>
      if now > entry.resetTime then
        let newEntry : RateLimitEntry := ⟨1, now + config.windowMs⟩
        some (⟨true, (config.maxRequests : Int) - 1, newEntry.resetTime⟩,
          { st with
            limits := fun k => if k = fullKey then some newEntry else st.limits k })
      else if entry.count ≥ config.maxRequests then
        some (⟨false, 0, entry.resetTime⟩, st)
      else
        let e : RateLimitEntry := ⟨entry.count + 1, entry.resetTime⟩
        some (⟨true, (config.maxRequests : Int) - e.count, entry.resetTime⟩,
          { st with
            limits := fun k => if k = fullKey then some e else st.limits k })

/-- The limiter state after `n` successive `checkLimit` calls for the same
`(key, identifier)` pair, call `j` happening at time `t j`. -/
def rlStates (st0 : RateLimiterState) (key identifier : String)
    (t : Nat → Nat) : Nat → RateLimiterState
  | 0 => st0
  | n + 1 =>
    match checkLimit (rlStates st0 key identifier t n) key identifier (t n) with
    | some (_, st) => st
    | none => rlStates st0 key identifier t n

/-- The result of the `(n+1)`-st call in that call sequence. -/
def rlResult (st0 : RateLimiterState) (key identifier : String)
    (t : Nat → Nat) (n : Nat) : Option CheckResult :=
  (checkLimit (rlStates st0 key identifier t n) key identifier (t n)).map
    Prod.fst

theorem checkLimit_no_entry (st : RateLimiterState) (key identifier : String)
    (now W M : Nat) (hc : st.configs key = some ⟨W, M⟩)
    (hl : st.limits (key ++ ":" ++ identifier) = none) :
    checkLimit st key identifier now =
      some (⟨true, (M : Int) - 1, now + W⟩,
        { st with limits := fun k =>
            if k = key ++ ":" ++ identifier then some ⟨1, now + W⟩
            else st.limits k }) := by
  unfold checkLimit
  rw [hc]
  dsimp only
  rw [hl]

theorem checkLimit_expired (st : RateLimiterState) (key identifier : String)
    (now W M : Nat) (entry : RateLimitEntry)
    (hc : st.configs key = some ⟨W, M⟩)
    (hl : st.limits (key ++ ":" ++ identifier) = some entry)
    (hexp : entry.resetTime < now) :
    checkLimit st key identifier now =
      some (⟨true, (M : Int) - 1, now + W⟩,
        { st with limits := fun k =>
            if k = key ++ ":" ++ identifier then some ⟨1, now + W⟩
            else st.limits k }) := by
  unfold checkLimit
  rw [hc]
  dsimp only
  rw [hl]
  dsimp only
  rw [if_pos hexp]

theorem checkLimit_reject (st : RateLimiterState) (key identifier : String)
    (now W M : Nat) (entry : RateLimitEntry)
    (hc : st.configs key = some ⟨W, M⟩)
    (hl : st.limits (key ++ ":" ++ identifier) = some entry)
    (hexp : now ≤ entry.resetTime) (hcount : M ≤ entry.count) :
    checkLimit st key identifier now =
      some (⟨false, 0, entry.resetTime⟩, st) := by
  unfold checkLimit
  rw [hc]
  dsimp only
  rw [hl]
  dsimp only
  rw [if_neg (Nat.not_lt.mpr hexp), if_pos hcount]

theorem checkLimit_increment (st : RateLimiterState) (key identifier : String)
    (now W M : Nat) (entry : RateLimitEntry)
    (hc : st.configs key = some ⟨W, M⟩)
    (hl : st.limits (key ++ ":" ++ identifier) = some entry)
    (hexp : now ≤ entry.resetTime) (hcount : ¬ M ≤ entry.count) :
    checkLimit st key identifier now =
      some (⟨true, (M : Int) - (entry.count + 1), entry.resetTime⟩,
        { st with limits := fun k =>
            if k = key ++ ":" ++ identifier then
              some ⟨entry.count + 1, entry.resetTime⟩
            else st.limits k }) := by
  unfold checkLimit
  rw [hc]
  dsimp only
  rw [hl]
  dsimp only
  rw [if_neg (Nat.not_lt.mpr hexp), if_neg hcount]
  norm_cast

theorem rlStates_succ (st0 : RateLimiterState) (key identifier : String)
    (t : Nat → Nat) (n : Nat) (r : CheckResult) (st : RateLimiterState)
    (h : checkLimit (rlStates st0 key identifier t n) key identifier (t n) =
      some (r, st)) :
    rlStates st0 key identifier t (n + 1) = st := by
  show (match checkLimit (rlStates st0 key identifier t n) key identifier
      (t n) with
    | some (_, st) => st
    | none => rlStates st0 key identifier t n) = st
  rw [h]

theorem rlStates_invariant (st0 : RateLimiterState) (key identifier : String)
    (W M : Nat) (t : Nat → Nat) (hM : 1 ≤ M)
    (hcfg : st0.configs key = some ⟨W, M⟩)
    (hfresh : st0.limits (key ++ ":" ++ identifier) = none)
    (hwin : ∀ j, t j ≤ t 0 + W) :
    ∀ n, (rlStates st0 key identifier t n).configs key = some ⟨W, M⟩ ∧
      ((rlStates st0 key identifier t n).limits (key ++ ":" ++ identifier) =
        if n = 0 then none else some ⟨min n M, t 0 + W⟩) := by
  intro n
  induction n with
  | zero => exact ⟨hcfg, by simpa [rlStates] using hfresh⟩
  | succ n ih =>
    obtain ⟨ihc, ihl⟩ := ih
    by_cases hn : n = 0
    · subst hn
      rw [if_pos rfl] at ihl
      rw [rlStates_succ st0 key identifier t 0 _ _
        (checkLimit_no_entry _ key identifier (t 0) W M ihc ihl)]
      refine ⟨ihc, ?_⟩
      rw [if_neg (by omega : ¬ (0 + 1 = 0))]
      simp [Nat.min_eq_left hM]
    · rw [if_neg hn] at ihl
      have hexp : t n ≤ t 0 + W := hwin n
      by_cases hge : M ≤ min n M
      · rw [rlStates_succ st0 key identifier t n _ _
          (checkLimit_reject _ key identifier (t n) W M _ ihc ihl hexp hge)]
        refine ⟨ihc, ?_⟩
        rw [ihl, if_neg (by omega : ¬ (n + 1 = 0))]
        have h1 : min n M = M := by omega
        have h2 : min (n + 1) M = M := by omega
        rw [h1, h2]
      · rw [rlStates_succ st0 key identifier t n _ _
          (checkLimit_increment _ key identifier (t n) W M _ ihc ihl hexp hge)]
        refine ⟨ihc, ?_⟩
        have h1 : min n M = n := by omega
        have h2 : min (n + 1) M = n + 1 := by omega
        rw [if_neg (by omega : ¬ (n + 1 = 0))]
        simp [h1, h2]

/-- C3: with a config `{windowMs := W, maxRequests := M}` (`M ≥ 1`) and no
prior traffic for the pair, the first `M` calls inside the window succeed
with `remainingRequests` counting down from `M - 1` to `0`; every further
in-window call is rejected with `remainingRequests = 0`, reports the
window's existing `resetTime`, and leaves the stored counter untouched;
and the first call after `resetTime` has passed opens a fresh window whose
counter is `1`. -/
theorem checkLimit_fixed_window (st0 : RateLimiterState)
    (key identifier : String) (W M : Nat) (t : Nat → Nat)
    (hM : 1 ≤ M)
    (hcfg : st0.configs key = some ⟨W, M⟩)
    (hfresh : st0.limits (key ++ ":" ++ identifier) = none)
    (hwin : ∀ j, t j ≤ t 0 + W) :
    (∀ n, n < M → rlResult st0 key identifier t n =
        some ⟨true, (M : Int) - (n + 1), t 0 + W⟩) ∧
    (∀ n, M ≤ n → rlResult st0 key identifier t n = some ⟨false, 0, t 0 + W⟩ ∧
        rlStates st0 key identifier t (n + 1) = rlStates st0 key identifier t n) ∧
    (∀ n now2, t 0 + W < now2 →
        ∃ st, checkLimit (rlStates st0 key identifier t n) key identifier now2 =
            some (⟨true, (M : Int) - 1, now2 + W⟩, st) ∧
          st.limits (key ++ ":" ++ identifier) = some ⟨1, now2 + W⟩) := by
  have inv := rlStates_invariant st0 key identifier W M t hM hcfg hfresh hwin
  refine ⟨?_, ?_, ?_⟩
  · intro n hn
    obtain ⟨ihc, ihl⟩ := inv n
    by_cases hn0 : n = 0
    · subst hn0
      rw [if_pos rfl] at ihl
      rw [rlResult, checkLimit_no_entry _ key identifier (t 0) W M ihc ihl]
      simp
    · rw [if_neg hn0] at ihl
      have h1 : min n M = n := by omega
      have hge : ¬ M ≤ (RateLimitEntry.mk (min n M) (t 0 + W)).count := by
        simp only [h1]; omega
      rw [rlResult,
        checkLimit_increment _ key identifier (t n) W M _ ihc ihl (hwin n) hge]
      simp [h1]
  · intro n hn
    obtain ⟨ihc, ihl⟩ := inv n
    have hn0 : ¬ n = 0 := by omega
    rw [if_neg hn0] at ihl
    have hge : M ≤ (RateLimitEntry.mk (min n M) (t 0 + W)).count := by
      show M ≤ min n M; omega
    constructor
    · rw [rlResult,
        checkLimit_reject _ key identifier (t n) W M _ ihc ihl (hwin n) hge]
      rfl
    · exact rlStates_succ st0 key identifier t n _ _
        (checkLimit_reject _ key identifier (t n) W M _ ihc ihl (hwin n) hge)
  · intro n now2 hnow
    obtain ⟨ihc, ihl⟩ := inv n
    by_cases hn0 : n = 0
    · subst hn0
      rw [if_pos rfl] at ihl
      refine ⟨_, checkLimit_no_entry _ key identifier now2 W M ihc ihl, ?_⟩
      simp
    · rw [if_neg hn0] at ihl
      refine ⟨_, checkLimit_expired _ key identifier now2 W M _ ihc ihl hnow, ?_⟩
      simp

/-- The limiter state of the spec's worked example: only the key `"k"` is
configured, with a one-minute window admitting two requests. -/
def rlExampleState : RateLimiterState where
  limits := fun _ => none
  configs := fun k => if k = "k" then some ⟨60000, 2⟩ else none

/-- Witness for C3: with `{windowMs := 60000, maxRequests := 2}` three
calls at time `0` yield `allowed = [true, true, false]`, and a fourth call
at time `60001` opens a fresh window with counter `1`. -/
theorem checkLimit_fixed_window_witness :
    rlResult rlExampleState "k" "u" (fun _ => 0) 0 = some ⟨true, 1, 60000⟩ ∧
    rlResult rlExampleState "k" "u" (fun _ => 0) 1 = some ⟨true, 0, 60000⟩ ∧
    rlResult rlExampleState "k" "u" (fun _ => 0) 2 = some ⟨false, 0, 60000⟩ ∧
    ∃ st, checkLimit (rlStates rlExampleState "k" "u" (fun _ => 0) 3)
        "k" "u" 60001 = some (⟨true, 1, 120001⟩, st) ∧
      st.limits "k:u" = some ⟨1, 120001⟩ := by
  have h := checkLimit_fixed_window rlExampleState "k" "u" 60000 2
    (fun _ => 0) (by decide) rfl rfl (fun j => Nat.zero_le _)
  refine ⟨?_, ?_, ?_, ?_⟩
  · have := h.1 0 (by decide)
    simpa using this
  · have := h.1 1 (by decide)
    simpa using this
  · exact (h.2.1 2 (by decide)).1
  · obtain ⟨st, hst, hl⟩ := h.2.2 3 60001 (by decide)
    exact ⟨st, by simpa using hst, by simpa using hl⟩

/-! ### Text processing (`src/utils/text-processing.ts`)

All string manipulation is modelled with structurally recursive
character-list functions so that every definition evaluates by kernel
reduction on concrete inputs. -/

/-- JS `String.prototype.trim`: strip whitespace from both ends. -/
def jsTrim (s : String) : String :=
  String.mk
    (((s.data.dropWhile Char.isWhitespace).reverse.dropWhile
      Char.isWhitespace).reverse)

/-- JS `slice(0, n)` on a string. -/
def jsTake (s : String) (n : Nat) : String := String.mk (s.data.take n)

/-- Scanner for the tag-removing pass `html.replace(/<[^>]*>/g, '')`.
The flag records being inside a matched `<...>` span.  An opening bracket
enters a span only when a closing bracket exists later (otherwise the
pattern cannot match and the character is kept). -/
def stripTagsAux : Bool → List Char → List Char
  | _, [] => []
  | false, c :: cs =>
    if c = '<' && cs.contains '>' then stripTagsAux true cs
    else c :: stripTagsAux false cs
  | true, c :: cs =>
    if c = '>' then stripTagsAux false cs else stripTagsAux true cs

/-- `html.replace(/<[^>]*>/g, '')`. -/
def stripTags (l : List Char) : List Char := stripTagsAux false l

/-- Scanner for whitespace-run collapsing, `.replace(/\s+/g, ' ')`.  The
flag records being inside a whitespace run (already emitted as one
space). -/
def collapseWsAux : Bool → List Char → List Char
  | _, [] => []
  | prevWs, c :: cs =>
    if c.isWhitespace then
      if prevWs then collapseWsAux true cs
      else ' ' :: collapseWsAux true cs
    else c :: collapseWsAux false cs

/-- `.replace(/\s+/g, ' ')`. -/
def collapseWs (l : List Char) : List Char := collapseWsAux false l

/-- Whether the first list starts with the second. -/
def startsWithChars : List Char → List Char → Bool
  | _, [] => true
  | [], _ :: _ => false
  | c :: cs, p :: ps => c = p && startsWithChars cs ps

/-- Fuelled scanner for global literal replacement
(`.replace(pat, rep)` with a `/g` literal pattern): on a match, emit the
replacement and continue after the matched span; fuel is the input
length, each step consumes at least one character. -/
def replaceSubFuel (pat rep : List Char) : Nat → List Char → List Char
  | _, [] => []
  | 0, l => l
  | fuel + 1, c :: cs =>
    if startsWithChars (c :: cs) pat then
      rep ++ replaceSubFuel pat rep fuel (cs.drop (pat.length - 1))
    else
      c :: replaceSubFuel pat rep fuel cs

/-- Global replacement of a non-empty literal pattern, as in the JS
`String.prototype.replace` with a `/g` literal regex. -/
def jsReplace (pat rep s : String) : String :=
  match pat.data with
  | [] => s
  | _ :: _ => String.mk (replaceSubFuel pat.data rep.data s.data.length s.data)

/-- `extractTextFromHtml`: strip tags, decode the six HTML entities,
collapse whitespace, trim. -/
def extractTextFromHtml (html : String) : String :=
  jsTrim (String.mk (collapseWs
    (jsReplace "&#x27;" (String.singleton (Char.ofNat 39))
      (jsReplace "&quot;" "\""
        (jsReplace "&gt;" ">"
          (jsReplace "&lt;" "<"
            (jsReplace "&amp;" "&"
              (jsReplace "&nbsp;" " "
                (String.mk (stripTags html.data)))))))).data))

/-- JS `split` on single-character separators: splitting on each
character satisfying `p`, keeping empty segments. -/
def splitChars (p : Char → Bool) : List Char → List (List Char)
  | [] => [[]]
  | c :: cs =>
    if p c then [] :: splitChars p cs
    else
      match splitChars p cs with
      | [] => [[c]]
      | h :: t => (c :: h) :: t

/-- The sentence-accumulation loop of `extractSummary`: append trimmed
sentences while the running summary stays within `maxLength`, stopping at
the first sentence that would overflow. -/
def buildSummary (maxLength : Nat) : List String → String → String
  | [], summary => summary
  | s :: rest, summary =>
    if summary.length + s.length > maxLength then summary
    else buildSummary maxLength rest (summary ++ jsTrim s ++ ". ")

/-- `extractSummary(content, maxLength = 200)`: sentences split on
`[.!?]`, accumulated within the length budget; falls back to a truncated
prefix of the cleaned content. -/
def extractSummary (content : String) (maxLength : Nat) : String :=
  let cleanContent := extractTextFromHtml content
  let sentences := ((splitChars
    (fun c => c = '.' || c = '!' || c = '?') cleanContent.data).map
      String.mk).filter (fun s => (jsTrim s).length > 0)
  let summary := buildSummary maxLength sentences ""
  if jsTrim summary = "" then jsTake cleanContent maxLength ++ "..."
  else jsTrim summary

/-- JS `Array.prototype.join(' ')`. -/
def joinSpace : List String → String
  | [] => ""
  | [s] => s
  | s :: rest => s ++ " " ++ joinSpace rest

/-- `createSearchableText`: title, description, de-HTML-ed content and the
tags, joined with single spaces and trimmed. -/
def createSearchableText (title description content : String)
    (tags : List String) : String :=
  jsTrim (joinSpace
    ([title, description, extractTextFromHtml content] ++ tags))

/-! ### Validation (`src/utils/validation.ts`, `PlaybookSchema`) -/

/-- The candidate playbook handed to `insertPlaybook` during sync
(`Omit<Playbook, 'id' | 'created_at' | 'updated_at'>`). -/
structure PlaybookInput where
  clickup_id : String
  title : String
  description : String
  content : String
  category : String
  tags : List String
  url : String
  embedding : Option (List ℚ)
deriving DecidableEq

/-- `validatePlaybook` via `PlaybookSchema.safeParse`: title and content
must be non-empty and the URL well-formed.  URL well-formedness
(`z.string().url()`, backed by the JS `URL` parser) is abstracted as the
oracle `urlValid`. -/
def validatePlaybook (urlValid : String → Bool) (p : PlaybookInput) :
    Except String Unit :=
  if p.title.length < 1 then .error "Title is required"
  else if p.content.length < 1 then .error "Content is required"
  else if urlValid p.url then .ok ()
  else .error "Invalid URL"

/-! ### Database client (`src/lib/database.ts`, class `DatabaseClient`) -/

/-- One row of the `playbooks` table. -/
structure Row where
  id : Nat
  clickup_id : String
  title : String
  description : String
  content : String
  category : String
  tags : List String
  url : String
  embedding : Option (List ℚ)
  created_at : Nat
  updated_at : Nat
deriving DecidableEq

/-- The `||` coalescing in the INSERT values: an empty category falls back
to the string `General`. -/
def orGeneral (s : String) : String := if s = "" then "General" else s

/-- `DatabaseClient.insertPlaybook`: `INSERT ... ON CONFLICT (clickup_id)
DO UPDATE SET title, description, content, category, tags, url, embedding,
updated_at = CURRENT_TIMESTAMP`.  `now` is the database clock, `freshId`
the id generated for a genuinely new row. -/
def insertPlaybook (p : PlaybookInput) (now freshId : Nat)
    (table : List Row) : List Row :=
  if table.any (fun r => r.clickup_id = p.clickup_id) then
    table.map (fun r =>
      if r.clickup_id = p.clickup_id then
        { r with
          title := p.title
          description := p.description
          content := p.content
          category := orGeneral p.category
          tags := p.tags
          url := p.url
          embedding := p.embedding
          updated_at := now }
      else r)
  else
    table ++ [{
      id := freshId
      clickup_id := p.clickup_id
      title := p.title
      description := p.description
      content := p.content
      category := orGeneral p.category
      tags := p.tags
      url := p.url
      embedding := p.embedding
      created_at := now
      updated_at := now }]

/-- `DatabaseClient.getPlaybookByClickUpId`. -/
def getPlaybookByClickUpId (table : List Row) (clickupId : String) :
    Option Row :=
  table.find? (fun r => r.clickup_id = clickupId)

/-- `clickup_id` (the external `sourceId`) is unique across the table. -/
def uniqueSourceIds (table : List Row) : Prop :=
  table.Pairwise (fun a b => a.clickup_id ≠ b.clickup_id)

theorem filter_key_length_one (table : List Row) (c : String)
    (h : uniqueSourceIds table)
    (hex : table.any (fun r => r.clickup_id = c) = true) :
    (table.filter (fun r => r.clickup_id = c)).length = 1 := by
  induction table with
  | nil => simp at hex
  | cons r rest ih =>
    unfold uniqueSourceIds at h
    rw [List.pairwise_cons] at h
    by_cases hr : r.clickup_id = c
    · have hnone : rest.filter (fun x => x.clickup_id = c) = [] := by
        rw [List.filter_eq_nil_iff]
        intro b hb
        simp only [decide_eq_true_eq]
        intro hbc
        exact h.1 b hb (hr.trans hbc.symm)
      simp [List.filter_cons, hr, hnone]
    · have hex2 : rest.any (fun x => x.clickup_id = c) = true := by
        simp only [List.any_cons, Bool.or_eq_true, decide_eq_true_eq] at hex
        rcases hex with h1 | h2
        · exact absurd h1 hr
        · exact h2
      simp [List.filter_cons, hr, ih h.2 hex2]

theorem filter_key_map (f : Row → Row)
    (hkf : ∀ r, (f r).clickup_id = r.clickup_id) (c : String) :
    ∀ (table : List Row),
      ((table.map f).filter (fun r => r.clickup_id = c)).length =
        (table.filter (fun r => r.clickup_id = c)).length := by
  intro table
  induction table with
  | nil => rfl
  | cons a rest ih =>
    rw [List.map_cons, List.filter_cons, List.filter_cons]
    have hpr : (decide ((f a).clickup_id = c)) = decide (a.clickup_id = c) := by
      rw [hkf a]
    rw [hpr]
    by_cases ha : a.clickup_id = c
    · simp [ha, ih]
    · simp [ha, ih]

/-- C4: upserting by `clickup_id` (the `sourceId`) never creates a second
row with the same `sourceId`: uniqueness of `sourceId` is preserved,
exactly one row carries the upserted `sourceId` afterwards, that row
holds the new title, description, content, category, tags, url and
embedding and has `updated_at` advanced to the database clock `now`, all
other rows are left unchanged, and the table grows only when the
`sourceId` was absent. -/
theorem insertPlaybook_upsert (p : PlaybookInput) (now freshId : Nat)
    (table : List Row) (h : uniqueSourceIds table) :
    uniqueSourceIds (insertPlaybook p now freshId table) ∧
    ((insertPlaybook p now freshId table).filter
      (fun r => r.clickup_id = p.clickup_id)).length = 1 ∧
    (∀ r ∈ insertPlaybook p now freshId table,
      r.clickup_id = p.clickup_id →
        r.title = p.title ∧ r.description = p.description ∧
        r.content = p.content ∧ r.category = orGeneral p.category ∧
        r.tags = p.tags ∧ r.url = p.url ∧ r.embedding = p.embedding ∧
        r.updated_at = now) ∧
    (∀ r ∈ insertPlaybook p now freshId table,
      r.clickup_id ≠ p.clickup_id → r ∈ table) ∧
    (insertPlaybook p now freshId table).length =
      (if table.any (fun r => r.clickup_id = p.clickup_id) then table.length
       else table.length + 1) := by
  by_cases hex : table.any (fun r => r.clickup_id = p.clickup_id) = true
  · have hdef : insertPlaybook p now freshId table =
        table.map (fun r =>
          if r.clickup_id = p.clickup_id then
            { r with
              title := p.title
              description := p.description
              content := p.content
              category := orGeneral p.category
              tags := p.tags
              url := p.url
              embedding := p.embedding
              updated_at := now }
          else r) := by
      unfold insertPlaybook
      rw [if_pos hex]
    have hkey : ∀ r : Row,
        (if r.clickup_id = p.clickup_id then
          { r with
            title := p.title
            description := p.description
            content := p.content
            category := orGeneral p.category
            tags := p.tags
            url := p.url
            embedding := p.embedding
            updated_at := now }
        else r).clickup_id = r.clickup_id := by
      intro r
      by_cases hr : r.clickup_id = p.clickup_id
      · rw [if_pos hr]
      · rw [if_neg hr]
    refine ⟨?_, ?_, ?_, ?_, ?_⟩
    · rw [hdef]
      unfold uniqueSourceIds
      rw [List.pairwise_map]
      exact h.imp (by intro a b hab; rw [hkey a, hkey b]; exact hab)
    · rw [hdef, filter_key_map _ hkey p.clickup_id table]
      exact filter_key_length_one table p.clickup_id h hex
    · rw [hdef]
      intro r hr hrid
      obtain ⟨a, ha, rfl⟩ := List.mem_map.mp hr
      by_cases hak : a.clickup_id = p.clickup_id
      · rw [if_pos hak]
        exact ⟨rfl, rfl, rfl, rfl, rfl, rfl, rfl, rfl⟩
      · rw [if_neg hak] at hrid ⊢
        exact absurd hrid hak
    · rw [hdef]
      intro r hr hrid
      obtain ⟨a, ha, rfl⟩ := List.mem_map.mp hr
      by_cases hak : a.clickup_id = p.clickup_id
      · rw [if_pos hak] at hrid
        exact absurd hak hrid
      · rw [if_neg hak]
        exact ha
    · rw [hdef, if_pos hex]
      exact table.length_map _
  · have hnone : ∀ r ∈ table, ¬ r.clickup_id = p.clickup_id := by
      intro r hr hrc
      exact hex (List.any_eq_true.mpr ⟨r, hr, by simpa using hrc⟩)
    have hdef : insertPlaybook p now freshId table = table ++ [{
        id := freshId
        clickup_id := p.clickup_id
        title := p.title
        description := p.description
        content := p.content
        category := orGeneral p.category
        tags := p.tags
        url := p.url
        embedding := p.embedding
        created_at := now
        updated_at := now }] := by
      unfold insertPlaybook
      rw [if_neg hex]
    refine ⟨?_, ?_, ?_, ?_, ?_⟩
    · rw [hdef]
      unfold uniqueSourceIds
      rw [List.pairwise_append]
      refine ⟨h, by simp, ?_⟩
      intro a ha b hb
      simp only [List.mem_singleton] at hb
      subst hb
      exact hnone a ha
    · rw [hdef, List.filter_append]
      have h1 : table.filter (fun r => r.clickup_id = p.clickup_id) = [] := by
        rw [List.filter_eq_nil_iff]
        intro a ha
        simpa using hnone a ha
      rw [h1]
      simp
    · rw [hdef]
      intro r hr hrid
      rw [List.mem_append] at hr
      rcases hr with hr | hr
      · exact absurd hrid (hnone r hr)
      · simp only [List.mem_singleton] at hr
        subst hr
        exact ⟨rfl, rfl, rfl, rfl, rfl, rfl, rfl, rfl⟩
    · rw [hdef]
      intro r hr hrid
      rw [List.mem_append] at hr
      rcases hr with hr | hr
      · exact hr
      · simp only [List.mem_singleton] at hr
        subst hr
        exact absurd rfl hrid
    · rw [hdef, if_neg hex]
      simp

/-- The two upserts of the spec's worked example: `{sourceId: "T1",
title: "A"}` then `{sourceId: "T1", title: "B"}` into an empty table. -/
def upsertInputA : PlaybookInput where
  clickup_id := "T1"
  title := "A"
  description := "first"
  content := "body A"
  category := "Sales"
  tags := ["a", "b"]
  url := "https://example.com/a"
  embedding := none

/-- Second upsert of the worked example, same `sourceId`, new fields. -/
def upsertInputB : PlaybookInput where
  clickup_id := "T1"
  title := "B"
  description := "second"
  content := "body B"
  category := "Sales"
  tags := ["a", "b"]
  url := "https://example.com/b"
  embedding := none

/-- Witness for C4: after upserting `T1/"A"` and then `T1/"B"`, exactly
one row is stored, it has the `sourceId` `T1`, title `B`, and
`updated_at` equal to the second upsert's clock. -/
theorem insertPlaybook_upsert_witness :
    uniqueSourceIds
      (insertPlaybook upsertInputB 20 2 (insertPlaybook upsertInputA 10 1 [])) ∧
    ((insertPlaybook upsertInputB 20 2
      (insertPlaybook upsertInputA 10 1 [])).filter
        (fun r => r.clickup_id = "T1")).length = 1 ∧
    (insertPlaybook upsertInputB 20 2
      (insertPlaybook upsertInputA 10 1 [])).length = 1 ∧
    ∀ r ∈ insertPlaybook upsertInputB 20 2
      (insertPlaybook upsertInputA 10 1 []),
        r.title = "B" ∧ r.updated_at = 20 := by
  have h := insertPlaybook_upsert upsertInputB 20 2
    (insertPlaybook upsertInputA 10 1 [])
    (by unfold uniqueSourceIds; decide)
  have htab : insertPlaybook upsertInputB 20 2
      (insertPlaybook upsertInputA 10 1 []) =
      [⟨1, "T1", "B", "second", "body B", "Sales", ["a", "b"],
        "https://example.com/b", none, 10, 20⟩] := by
    decide
  refine ⟨h.1, h.2.1, by rw [htab]; rfl, ?_⟩
  intro r hr
  rw [htab, List.mem_singleton] at hr
  subst hr
  exact ⟨rfl, rfl⟩

/-! ### Gemini client (`src/lib/gemini.ts`, class `GeminiClient`)

The Gemini API itself is external; its raw responses are an oracle.  The
client methods below reproduce the source's post-processing and fallback
behavior around that oracle. -/

/-- `EmbeddingResponse` from `src/types`: a vector plus an optional error
message; the client returns `{embedding: [], error}` when the API call
throws. -/
structure EmbeddingResponse where
  embedding : List ℚ
  error : Option String
deriving DecidableEq

/-- Raw behaviors of the external Gemini API for each kind of request the
client makes; `Except.error` models a thrown/failed API call. -/
structure GeminiOracle where
  rawEmbed : String → Except String (List ℚ)
  rawReason : String → String → String → String → Except String String
  rawSuggest : String → Except String String
  rawCategorize : String → String → String → Except String String

/-- `GeminiClient.cleanText`: collapse whitespace, drop characters outside
word/whitespace/`.,!?-`, trim, slice to 1000. -/
def cleanText (text : String) : String :=
  let s1 := String.mk (collapseWs text.data)
  let s2 := String.mk (s1.data.filter (fun c =>
    c.isAlphanum || c = '_' || c.isWhitespace || c = '.' || c = ',' ||
    c = '!' || c = '?' || c = '-'))
  jsTake (jsTrim s2) 1000

/-- `GeminiClient.generateEmbedding`: never throws; a failed call yields
an empty vector with the error message attached. -/
def generateEmbedding (o : GeminiOracle) (text : String) :
    EmbeddingResponse :=
  match o.rawEmbed (cleanText text) with
  | .ok v => ⟨v, none⟩
  | .error e => ⟨[], some e⟩

/-- The hard-coded fallback text of
`GeminiClient.generateRecommendationReasoning`. -/
def defaultReason : String :=
  "This playbook matches your query based on similar content and keywords."

/-- `GeminiClient.generateRecommendationReasoning`: trimmed LLM text, or
the fallback sentence when the call fails.  Never throws. -/
def generateRecommendationReasoning (o : GeminiOracle)
    (query title description category : String) : String :=
  match o.rawReason query title description category with
  | .ok t => jsTrim t
  | .error _ => defaultReason

/-- `GeminiClient.generateSearchSuggestions`: up to three trimmed
non-empty lines of the LLM response, or `[]` when the call fails. -/
def generateSearchSuggestions (o : GeminiOracle) (query : String) :
    List String :=
  match o.rawSuggest query with
  | .ok t =>
    ((((splitChars (fun c => c = Char.ofNat 10) t.data).map
      String.mk).map jsTrim).filter
      (fun line => line.length > 0)).take 3
  | .error _ => []

/-- The `validCategories` list of `GeminiClient.categorizePlaybook`. -/
def validCategories : List String :=
  ["Sales", "Marketing", "Customer Success", "Product",
   "Engineering", "HR", "Operations", "Finance", "General"]

/-- `GeminiClient.categorizePlaybook`: the trimmed LLM label when it is
one of the enumerated categories, otherwise `General`; `General` also
when the call fails. -/
def categorizePlaybook (o : GeminiOracle)
    (title description content : String) : String :=
  match o.rawCategorize title description content with
  | .ok t =>
    let category := jsTrim t
    if category ∈ validCategories then category else "General"
  | .error _ => "General"

/-! ### Similarity search (`src/lib/database.ts` +
`src/api/ai/search.ts`) -/

/-- `PlaybookSearchResult` from `src/types`. -/
structure PlaybookSearchResult where
  playbook : Row
  similarity_score : ℚ
  relevance_reason : Option String
deriving DecidableEq

/-- The rows the search SQL retains, with their similarity:
`WHERE embedding IS NOT NULL [AND category = $c] AND
(1 - (embedding <=> $query)) > $threshold`.  The pgvector cosine-distance
operator `<=>` is the oracle `dist`. -/
def scoredRows (dist : List ℚ → List ℚ → ℚ) (table : List Row)
    (qe : List ℚ) (category : Option String) (threshold : ℚ) :
    List (Row × ℚ) :=
  table.filterMap (fun r =>
    match r.embedding with
    | none => none
    | some e =>
      let s := 1 - dist qe e
      if (match category with
          | none => true
          | some c => decide (r.category = c)) && decide (threshold < s) then
        some (r, s)
      else none)

/-- `DatabaseClient.searchPlaybooksByEmbedding`: qualifying rows ordered
by `similarity_score DESC`, truncated by `LIMIT`. -/
def searchPlaybooksByEmbedding (dist : List ℚ → List ℚ → ℚ)
    (table : List Row) (qe : List ℚ) (category : Option String)
    (limit : Nat) (threshold : ℚ) : List PlaybookSearchResult :=
  ((((scoredRows dist table qe category threshold).mergeSort
    (fun a b => decide (b.2 ≤ a.2))).take limit).map
    (fun p => ⟨p.1, p.2, none⟩))

/-- A printed form for rational numbers appearing inside cache keys
(stands in for JS number printing; only key identity matters). -/
def ratStr (q : ℚ) : String := toString q.num ++ "/" ++ toString q.den

/-- The search cache key
`search:${query}:${category || 'all'}:${limit}:${threshold}`. -/
def searchKey (query : String) (category : Option String) (limit : Nat)
    (threshold : ℚ) : String :=
  "search:" ++ query ++ ":" ++
    (match category with
     | some c => c
     | none => "all") ++ ":" ++ toString limit ++ ":" ++ ratStr threshold

/-- Lines 88-102 of `src/api/ai/search.ts`: take the query embedding from
the embedding cache, else generate it, failing the whole search when the
provider errors or returns an empty vector. -/
def getQueryEmbedding (o : GeminiOracle) (query : String) (now : Nat)
    (embedC : CacheMap (List ℚ)) :
    Except String (List ℚ × CacheMap (List ℚ)) :=
  let g := cacheGet embedC ("embedding:" ++ query) now
  match g.1 with
  | some v => .ok (v, g.2)
  | none =>
    let er := generateEmbedding o query
    if er.error.isSome || er.embedding.isEmpty then
      .error "Failed to generate embedding for search query"
    else
      .ok (er.embedding,
        cacheSet g.2 ("embedding:" ++ query) er.embedding now 3600000)

/-- Lines 110-131 of `src/api/ai/search.ts`: attach a relevance reason to
each retained result.  `generateRecommendationReasoning` never throws
(it falls back internally), so every result is kept and annotated. -/
def enhanceResults (o : GeminiOracle) (query : String)
    (rs : List PlaybookSearchResult) : List PlaybookSearchResult :=
  rs.map (fun r =>
    { r with relevance_reason := some (generateRecommendationReasoning o
        query r.playbook.title r.playbook.description
        r.playbook.category) })

/-- `performSemanticSearch` from `src/api/ai/search.ts`: search-cache
lookup, query embedding, vector search with `limit * 2`, slice to
`limit`, enhancement, cache write. -/
def performSemanticSearch (o : GeminiOracle)
    (dist : List ℚ → List ℚ → ℚ) (table : List Row) (query : String)
    (category : Option String) (limit : Nat) (threshold : ℚ) (now : Nat)
    (embedC : CacheMap (List ℚ))
    (searchC : CacheMap (List PlaybookSearchResult)) :
    Except String (List PlaybookSearchResult × CacheMap (List ℚ) ×
      CacheMap (List PlaybookSearchResult)) :=
  let key := searchKey query category limit threshold
  let g := cacheGet searchC key now
  match g.1 with
  | some v => .ok (v, embedC, g.2)
  | none =>
    match getQueryEmbedding o query now embedC with
    | .error e => .error e
    | .ok (qe, embedC2) =>
      let searchResults :=
        searchPlaybooksByEmbedding dist table qe category (limit * 2)
          threshold
      let enhanced := enhanceResults o query (searchResults.take limit)
      .ok (enhanced, embedC2, cacheSet g.2 key enhanced now 300000)

theorem scoredRows_score (dist : List ℚ → List ℚ → ℚ) (table : List Row)
    (qe : List ℚ) (category : Option String) (threshold : ℚ) :
    ∀ p ∈ scoredRows dist table qe category threshold, threshold < p.2 := by
  intro p hp
  unfold scoredRows at hp
  obtain ⟨r, hr, heq⟩ := List.mem_filterMap.mp hp
  cases hemb : r.embedding with
  | none => rw [hemb] at heq; simp at heq
  | some e =>
    rw [hemb] at heq
    simp only [] at heq
    split at heq
    next hcond =>
      cases heq
      exact of_decide_eq_true ((Bool.and_eq_true _ _).mp hcond).2
    next hcond => simp at heq

theorem searchPlaybooksByEmbedding_score (dist : List ℚ → List ℚ → ℚ)
    (table : List Row) (qe : List ℚ) (category : Option String)
    (limit : Nat) (threshold : ℚ) :
    ∀ r ∈ searchPlaybooksByEmbedding dist table qe category limit threshold,
      threshold < r.similarity_score := by
  intro r hr
  unfold searchPlaybooksByEmbedding at hr
  obtain ⟨p, hp, rfl⟩ := List.mem_map.mp hr
  have hp2 : p ∈ (scoredRows dist table qe category threshold).mergeSort
      (fun a b => decide (b.2 ≤ a.2)) := List.take_subset _ _ hp
  have hp3 : p ∈ scoredRows dist table qe category threshold :=
    List.mem_mergeSort.mp hp2
  exact scoredRows_score dist table qe category threshold p hp3

theorem searchPlaybooksByEmbedding_sorted (dist : List ℚ → List ℚ → ℚ)
    (table : List Row) (qe : List ℚ) (category : Option String)
    (limit : Nat) (threshold : ℚ) :
    (searchPlaybooksByEmbedding dist table qe category limit
      threshold).Pairwise
        (fun a b => b.similarity_score ≤ a.similarity_score) := by
  unfold searchPlaybooksByEmbedding
  rw [List.pairwise_map]
  have hsorted := @List.sorted_mergeSort (Row × ℚ)
    (fun a b => decide (b.2 ≤ a.2))
    (by
      intro a b c hab hbc
      simp only [decide_eq_true_eq] at hab hbc ⊢
      exact le_trans hbc hab)
    (by
      intro a b
      rcases le_total b.2 a.2 with hle | hle
      · simp [hle]
      · simp [hle])
    (scoredRows dist table qe category threshold)
  exact (hsorted.take).imp (fun hab => of_decide_eq_true hab)

theorem searchPlaybooksByEmbedding_length (dist : List ℚ → List ℚ → ℚ)
    (table : List Row) (qe : List ℚ) (category : Option String)
    (limit : Nat) (threshold : ℚ) :
    (searchPlaybooksByEmbedding dist table qe category limit
      threshold).length ≤ limit := by
  unfold searchPlaybooksByEmbedding
  rw [List.length_map, List.length_take]
  exact min_le_left _ _

theorem searchPlaybooksByEmbedding_nil (dist : List ℚ → List ℚ → ℚ)
    (table : List Row) (qe : List ℚ) (category : Option String)
    (limit : Nat) (threshold : ℚ)
    (h : scoredRows dist table qe category threshold = []) :
    searchPlaybooksByEmbedding dist table qe category limit threshold
      = [] := by
  unfold searchPlaybooksByEmbedding
  rw [h]
  simp

theorem enhanceResults_projection (o : GeminiOracle) (query : String)
    (rs : List PlaybookSearchResult) :
    (enhanceResults o query rs).map
      (fun r => (r.playbook, r.similarity_score)) =
      rs.map (fun r => (r.playbook, r.similarity_score)) := by
  unfold enhanceResults
  rw [List.map_map]
  rfl

theorem enhanceResults_score_mem (o : GeminiOracle) (query : String)
    (rs : List PlaybookSearchResult) :
    ∀ r ∈ enhanceResults o query rs,
      ∃ r0 ∈ rs, r.similarity_score = r0.similarity_score := by
  intro r hr
  obtain ⟨r0, hr0, rfl⟩ := List.mem_map.mp hr
  exact ⟨r0, hr0, rfl⟩

theorem enhanceResults_pairwise (o : GeminiOracle) (query : String)
    (rs : List PlaybookSearchResult)
    (h : rs.Pairwise (fun a b => b.similarity_score ≤ a.similarity_score)) :
    (enhanceResults o query rs).Pairwise
      (fun a b => b.similarity_score ≤ a.similarity_score) := by
  unfold enhanceResults
  rw [List.pairwise_map]
  exact h

/-- C2: on a search-cache miss, given the query embedding is obtainable,
the semantic search succeeds and its result list contains only results
scoring strictly above the threshold, has at most `limit` elements, is
ordered by non-increasing similarity, and is empty (not an error) when no
row qualifies. -/
theorem performSemanticSearch_contract (o : GeminiOracle)
    (dist : List ℚ → List ℚ → ℚ) (table : List Row) (query : String)
    (category : Option String) (limit : Nat) (threshold : ℚ) (now : Nat)
    (embedC : CacheMap (List ℚ))
    (searchC : CacheMap (List PlaybookSearchResult)) (qe : List ℚ)
    (embedC2 : CacheMap (List ℚ))
    (hmiss : (cacheGet searchC
      (searchKey query category limit threshold) now).1 = none)
    (hemb : getQueryEmbedding o query now embedC = .ok (qe, embedC2)) :
    ∃ rs searchC2,
      performSemanticSearch o dist table query category limit threshold
        now embedC searchC = .ok (rs, embedC2, searchC2) ∧
      (∀ r ∈ rs, threshold < r.similarity_score) ∧
      rs.length ≤ limit ∧
      rs.Pairwise (fun a b => b.similarity_score ≤ a.similarity_score) ∧
      (scoredRows dist table qe category threshold = [] → rs = []) := by
  unfold performSemanticSearch
  simp only []
  rw [hmiss, hemb]
  refine ⟨_, _, rfl, ?_, ?_, ?_, ?_⟩
  · intro r hr
    obtain ⟨r0, hr0, hs⟩ := enhanceResults_score_mem o query _ r hr
    rw [hs]
    exact searchPlaybooksByEmbedding_score dist table qe category
      (limit * 2) threshold r0 (List.take_subset _ _ hr0)
  · unfold enhanceResults
    rw [List.length_map, List.length_take]
    exact min_le_left _ _
  · exact enhanceResults_pairwise o query _
      ((searchPlaybooksByEmbedding_sorted dist table qe category
        (limit * 2) threshold).take)
  · intro hnil
    rw [searchPlaybooksByEmbedding_nil dist table qe category (limit * 2)
      threshold hnil]
    simp [enhanceResults]

/-- A concrete Gemini oracle whose calls all succeed. -/
def happyOracle : GeminiOracle where
  rawEmbed := fun _ => .ok [1]
  rawReason := fun _ _ _ _ => .ok "because it matches"
  rawSuggest := fun _ => .ok "alpha\nbeta"
  rawCategorize := fun _ _ _ => .ok "Sales"

/-- A concrete distance oracle: everything is at distance zero. -/
def zeroDist : List ℚ → List ℚ → ℚ := fun _ _ => 0

/-- A concrete stored row with an embedding, eligible for search. -/
def wRow : Row where
  id := 1
  clickup_id := "T2"
  title := "Title"
  description := "d"
  content := "body"
  category := "Sales"
  tags := []
  url := "https://example.com/x"
  embedding := some [1]
  created_at := 0
  updated_at := 0

/-- Witness for C2: a concrete search over one stored row with empty
caches succeeds, and the contract's threshold, length, ordering and
empty-case conclusions all hold at that input. -/
theorem performSemanticSearch_contract_witness :
    ∃ rs searchC2,
      performSemanticSearch happyOracle zeroDist [wRow] "q" none 5
        (7 / 10) 0 (fun _ => none) (fun _ => none) =
        .ok (rs,
          cacheSet (fun _ => none) ("embedding:" ++ "q") [1] 0 3600000,
          searchC2) ∧
      (∀ r ∈ rs, (7 / 10 : ℚ) < r.similarity_score) ∧
      rs.length ≤ 5 ∧
      rs.Pairwise (fun a b => b.similarity_score ≤ a.similarity_score) ∧
      (scoredRows zeroDist [wRow] [1] none (7 / 10) = [] → rs = []) :=
  performSemanticSearch_contract happyOracle zeroDist [wRow] "q" none 5
    (7 / 10) 0 (fun _ => none) (fun _ => none) [1]
    (cacheSet (fun _ => none) ("embedding:" ++ "q") [1] 0 3600000) rfl rfl

/-! ### C9: best-effort enrichment fallbacks -/

/-- C9 (amended): classification always yields one of the enumerated
category labels, falling back to `General` both when the classifier call
fails and when it returns an unrecognized label such as `Bogus`; a
failing per-result relevance-explanation call never drops the result —
it is kept with the client's generic default explanation attached; and a
failing suggestion call yields an empty suggestion list. -/
theorem enrichment_fallbacks (o : GeminiOracle) :
    (∀ title description content,
      categorizePlaybook o title description content ∈ validCategories) ∧
    (∀ title description content e,
      o.rawCategorize title description content = .error e →
        categorizePlaybook o title description content = "General") ∧
    (∀ title description content,
      o.rawCategorize title description content = .ok "Bogus" →
        categorizePlaybook o title description content = "General") ∧
    (∀ query rs,
      (enhanceResults o query rs).map
        (fun r => (r.playbook, r.similarity_score)) =
        rs.map (fun r => (r.playbook, r.similarity_score))) ∧
    (∀ query title description category e,
      o.rawReason query title description category = .error e →
        generateRecommendationReasoning o query title description category
          = defaultReason) ∧
    (∀ query e, o.rawSuggest query = .error e →
      generateSearchSuggestions o query = []) := by
  refine ⟨?_, ?_, ?_, ?_, ?_, ?_⟩
  · intro title description content
    unfold categorizePlaybook
    cases hraw : o.rawCategorize title description content with
    | error e => simp [validCategories]
    | ok t =>
      simp only []
      by_cases hmem : jsTrim t ∈ validCategories
      · rw [if_pos hmem]
        exact hmem
      · rw [if_neg hmem]
        simp [validCategories]
  · intro title description content e hraw
    unfold categorizePlaybook
    rw [hraw]
  · intro title description content hraw
    unfold categorizePlaybook
    rw [hraw]
    simp only []
    rw [if_neg (by decide)]
  · intro query rs
    exact enhanceResults_projection o query rs
  · intro query title description category e hraw
    unfold generateRecommendationReasoning
    rw [hraw]
  · intro query e hraw
    unfold generateSearchSuggestions
    rw [hraw]

/-- A Gemini oracle whose LLM calls all fail, and whose classifier, when
it does answer, answers with the unrecognized label `Bogus`. -/
def bogusOracle : GeminiOracle where
  rawEmbed := fun _ => .error "api down"
  rawReason := fun _ _ _ _ => .error "api down"
  rawSuggest := fun _ => .error "api down"
  rawCategorize := fun _ _ _ => .ok "Bogus"

/-- Witness for C9: with a failing/`Bogus`-answering oracle, the
classifier yields `General` (an enumerated label), enhancement keeps the
result's playbook and score, the failed explanation degrades to the
default text, and suggestions degrade to the empty list. -/
theorem enrichment_fallbacks_witness :
    categorizePlaybook bogusOracle "t" "d" "c" ∈ validCategories ∧
    categorizePlaybook bogusOracle "t" "d" "c" = "General" ∧
    (enhanceResults bogusOracle "q" [⟨wRow, 9 / 10, none⟩]).map
      (fun r => (r.playbook, r.similarity_score)) =
      [(wRow, 9 / 10)] ∧
    generateRecommendationReasoning bogusOracle "q" "t" "d" "c" =
      defaultReason ∧
    generateSearchSuggestions bogusOracle "q" = [] := by
  have h := enrichment_fallbacks bogusOracle
  refine ⟨h.1 "t" "d" "c", h.2.2.1 "t" "d" "c" rfl, ?_, ?_, ?_⟩
  · rw [h.2.2.2.1 "q" [⟨wRow, 9 / 10, none⟩]]
    rfl
  · exact h.2.2.2.2.1 "q" "t" "d" "c" "api down" rfl
  · exact h.2.2.2.2.2 "q" "api down" rfl

/-- Counterexample for C9 as stated: a per-result relevance-explanation
failure does not leave the result `without an explanation` — the client
catches the failure internally and attaches its generic default
explanation, so the kept result's `relevance_reason` is `some` default
text, not `none`. -/
theorem enrichment_explanation_counterexample :
    ((enhanceResults bogusOracle "q" [⟨wRow, 9 / 10, none⟩]).map
      (fun r => r.relevance_reason)) = [some defaultReason] ∧
    some defaultReason ≠ (none : Option String) := by
  constructor
  · rfl
  · intro h
    cases h

/-! ### Synchronizer (`src/api/clickup/sync.ts`)

The ClickUp task list is the synchronizer's input (the fetch is an
`Except`: a thrown connector error aborts the run).  `date_updated`
carries the parsed value of `new Date(task.date_updated)` in
milliseconds.  Store failures of the two database calls inside the
per-item `try` are oracles keyed by task. -/

/-- The fields of `ClickUpTask` the synchronizer reads (tags already
projected to their names, as `task.tags?.map(t => t.name)` does). -/
structure ClickUpTask where
  id : String
  name : String
  description : String
  url : String
  tags : List String
  date_updated : Nat
deriving DecidableEq

/-- The synchronizer's collaborators: the Gemini client oracle, the
`z.string().url()` validity oracle, and per-task store-failure oracles
for `getPlaybookByClickUpId` and `insertPlaybook` (`some msg` = the call
throws with that message). -/
structure SyncOracles where
  gemini : GeminiOracle
  urlValid : String → Bool
  lookupFail : ClickUpTask → Option String
  insertFail : ClickUpTask → Option String

/-- `SyncResult` from `src/types`. -/
structure SyncResult where
  success : Bool
  synced_count : Nat
  updated_count : Nat
  error_count : Nat
  errors : List String
deriving DecidableEq

/-- The synchronizer's evolving state: the playbooks table, the id
supply for fresh rows, the accumulating `SyncResult`, and logs of the
embedding/classification requests made (for frame reasoning). -/
structure SyncSt where
  table : List Row
  nextId : Nat
  result : SyncResult
  embedCalls : List String
  classifyCalls : List String
deriving DecidableEq

/-- `result.errors.push(msg); result.error_count++`. -/
def pushError (st : SyncSt) (msg : String) : SyncSt :=
  { st with result := { st.result with
      errors := st.result.errors ++ [msg]
      error_count := st.result.error_count + 1 } }

/-- `task.description || task.name` (JS falsy fallback on the empty
string). -/
def taskContent (task : ClickUpTask) : String :=
  if task.description = "" then task.name else task.description

/-- The searchable text built for a task. -/
def taskSearchableText (task : ClickUpTask) : String :=
  createSearchableText task.name task.description (taskContent task)
    task.tags

/-- The candidate playbook built for a task (lines 112-121 of the sync):
embedding kept only when non-empty. -/
def taskPlaybook (o : SyncOracles) (task : ClickUpTask) : PlaybookInput where
  clickup_id := task.id
  title := task.name
  description := extractSummary task.description 200
  content := extractTextFromHtml (taskContent task)
  category := categorizePlaybook o.gemini task.name task.description
    (taskContent task)
  tags := task.tags
  url := task.url
  embedding :=
    if 0 < (generateEmbedding o.gemini (taskSearchableText task)).embedding.length
    then some (generateEmbedding o.gemini (taskSearchableText task)).embedding
    else none

/-- The validation outcome for a task's candidate playbook. -/
def taskValidation (o : SyncOracles) (task : ClickUpTask) : Except String Unit :=
  validatePlaybook o.urlValid (taskPlaybook o task)

/-- The staleness check (lines 83-91 of the sync): skip when an entity
exists, no forced refresh was requested, and the task is not newer. -/
def skipCheck (force : Bool) (existing : Option Row) (task : ClickUpTask) :
    Bool :=
  match existing with
  | some pb => !force && decide (task.date_updated ≤ pb.updated_at)
  | none => false

/-- Appends the embedding and classification requests a processed (not
skipped) task issues. -/
def logCalls (st : SyncSt) (task : ClickUpTask) : SyncSt :=
  { st with
    embedCalls := st.embedCalls ++ [taskSearchableText task]
    classifyCalls := st.classifyCalls ++ [task.name] }

/-- The per-item loop body of `syncPlaybooks` (lines 79-146): lookup,
staleness check, embedding (failure logged only), classification,
validation, upsert; any failure is recorded against the result and the
loop continues. -/
def processTask (o : SyncOracles) (force : Bool) (now : Nat)
    (st : SyncSt) (task : ClickUpTask) : SyncSt :=
  match o.lookupFail task with
  | some msg =>
    pushError st ("Failed to sync task " ++ task.name ++ ": " ++ msg)
  | none =>
    let existing := getPlaybookByClickUpId st.table task.id
    if skipCheck force existing task then st
    else
      let st2 := logCalls st task
      match validatePlaybook o.urlValid (taskPlaybook o task) with
      | .error m =>
        pushError st2 ("Validation failed for " ++ task.name ++ ": " ++ m)
      | .ok _ =>
        match o.insertFail task with
        | some msg =>
          pushError st2 ("Failed to sync task " ++ task.name ++ ": " ++ msg)
        | none =>
          let newTable :=
            insertPlaybook (taskPlaybook o task) now st2.nextId st2.table
          match existing with
          | some _ =>
            { st2 with
              table := newTable
              nextId := st2.nextId + 1
              result := { st2.result with
                updated_count := st2.result.updated_count + 1 } }
          | none =>
            { st2 with
              table := newTable
              nextId := st2.nextId + 1
              result := { st2.result with
                synced_count := st2.result.synced_count + 1 } }

/-- `'completed'` / `'failed'` as stored by `DatabaseClient.logSync`. -/
def syncLogStatus (r : SyncResult) : String :=
  if r.success then "completed" else "failed"

/-- The freshly initialized result of a run (lines 60-66). -/
def initialSyncResult : SyncResult where
  success := true
  synced_count := 0
  updated_count := 0
  error_count := 0
  errors := []

/-- `syncPlaybooks`: fetch tasks (an `Except.error` is the connector
being unreachable, caught by the outer `try`), process each task in
order, and log the run.  Returns the final state and the `sync_logs`
entries written. -/
def syncPlaybooks (o : SyncOracles) (force : Bool) (now : Nat)
    (fetch : Except String (List ClickUpTask)) (table0 : List Row)
    (nextId0 : Nat) : SyncSt × List (String × SyncResult) :=
  match fetch with
  | .error e =>
    let r : SyncResult := { initialSyncResult with
      success := false
      errors := ["Sync failed: " ++ e] }
    (⟨table0, nextId0, r, [], []⟩, [(syncLogStatus r, r)])
  | .ok tasks =>
    let st := tasks.foldl (processTask o force now)
      ⟨table0, nextId0, initialSyncResult, [], []⟩
    (st, [(syncLogStatus st.result, st.result)])

/-- Whether the loop records task processing as failed: a throwing
lookup, a failed validation, or a throwing upsert.  Embedding and
classification failures are not recorded (they degrade). -/
def taskFails (o : SyncOracles) (task : ClickUpTask) : Bool :=
  (o.lookupFail task).isSome || !(taskValidation o task).toBool ||
    (o.insertFail task).isSome

/-- The error message the loop records for a failing task. -/
def taskErrMsg (o : SyncOracles) (task : ClickUpTask) : Option String :=
  match o.lookupFail task with
  | some msg =>
    some ("Failed to sync task " ++ task.name ++ ": " ++ msg)
  | none =>
    match taskValidation o task with
    | .error m =>
      some ("Validation failed for " ++ task.name ++ ": " ++ m)
    | .ok _ =>
      match o.insertFail task with
      | some msg =>
        some ("Failed to sync task " ++ task.name ++ ": " ++ msg)
      | none => none

theorem processTask_lookup_eq (o : SyncOracles) (force : Bool) (now : Nat)
    (st : SyncSt) (task : ClickUpTask) (msg : String)
    (h : o.lookupFail task = some msg) :
    processTask o force now st task =
      pushError st ("Failed to sync task " ++ task.name ++ ": " ++ msg) := by
  unfold processTask
  rw [h]

theorem skipCheck_force (existing : Option Row) (task : ClickUpTask) :
    skipCheck true existing task = false := by
  cases existing <;> simp [skipCheck]

theorem processTask_step (o : SyncOracles) (force : Bool) (now : Nat)
    (st : SyncSt) (task : ClickUpTask)
    (hnoskip : o.lookupFail task = none →
      skipCheck force (getPlaybookByClickUpId st.table task.id) task
        = false) :
    (processTask o force now st task).result.success =
      st.result.success ∧
    (processTask o force now st task).result.error_count =
      st.result.error_count + (if taskFails o task then 1 else 0) ∧
    (processTask o force now st task).result.errors =
      st.result.errors ++ (taskErrMsg o task).toList ∧
    (processTask o force now st task).result.synced_count +
      (processTask o force now st task).result.updated_count =
      st.result.synced_count + st.result.updated_count +
        (if taskFails o task then 0 else 1) := by
  cases hlk : o.lookupFail task with
  | some msg =>
    rw [processTask_lookup_eq o force now st task msg hlk]
    have hf : taskFails o task = true := by
      unfold taskFails
      rw [hlk]
      rfl
    have hm : taskErrMsg o task =
        some ("Failed to sync task " ++ task.name ++ ": " ++ msg) := by
      unfold taskErrMsg
      rw [hlk]
    rw [hf, hm]
    simp [pushError]
  | none =>
    have hskip := hnoskip hlk
    unfold processTask
    rw [hlk]
    simp only [hskip, Bool.false_eq_true, if_false]
    cases hval : validatePlaybook o.urlValid (taskPlaybook o task) with
    | error m =>
      have hf : taskFails o task = true := by
        unfold taskFails taskValidation
        rw [hlk, hval]
        rfl
      have hm : taskErrMsg o task =
          some ("Validation failed for " ++ task.name ++ ": " ++ m) := by
        unfold taskErrMsg taskValidation
        rw [hlk, hval]
      rw [hf, hm]
      simp [pushError, logCalls]
    | ok u =>
      cases hins : o.insertFail task with
      | some msg =>
        have hf : taskFails o task = true := by
          unfold taskFails taskValidation
          rw [hlk, hval, hins]
          rfl
        have hm : taskErrMsg o task =
            some ("Failed to sync task " ++ task.name ++ ": " ++ msg) := by
          unfold taskErrMsg taskValidation
          rw [hlk, hval, hins]
        rw [hf, hm]
        simp [pushError, logCalls]
      | none =>
        have hf : taskFails o task = false := by
          unfold taskFails taskValidation
          rw [hlk, hval, hins]
          rfl
        have hm : taskErrMsg o task = none := by
          unfold taskErrMsg taskValidation
          rw [hlk, hval, hins]
        rw [hf, hm]
        cases hex : getPlaybookByClickUpId st.table task.id with
        | some pb => simp [logCalls]; omega
        | none => simp [logCalls]; omega

theorem filter_length_split {α : Type} (p : α → Bool) :
    ∀ l : List α,
      (l.filter p).length + (l.filter (fun a => !p a)).length = l.length := by
  intro l
  induction l with
  | nil => rfl
  | cons a rest ih =>
    rw [List.filter_cons, List.filter_cons]
    cases hp : p a <;> simp <;> omega

theorem processTask_foldl (o : SyncOracles) (now : Nat) :
    ∀ (tasks : List ClickUpTask) (st : SyncSt),
      (tasks.foldl (processTask o true now) st).result.success =
        st.result.success ∧
      (tasks.foldl (processTask o true now) st).result.error_count =
        st.result.error_count +
          (tasks.filter (fun t => taskFails o t)).length ∧
      (tasks.foldl (processTask o true now) st).result.errors =
        st.result.errors ++ tasks.filterMap (fun t => taskErrMsg o t) ∧
      (tasks.foldl (processTask o true now) st).result.synced_count +
        (tasks.foldl (processTask o true now) st).result.updated_count =
        st.result.synced_count + st.result.updated_count +
          (tasks.filter (fun t => !taskFails o t)).length := by
  intro tasks
  induction tasks with
  | nil =>
    intro st
    simp
  | cons t rest ih =>
    intro st
    rw [List.foldl_cons]
    have hstep := processTask_step o true now st t
      (fun _ => skipCheck_force _ _)
    obtain ⟨hs, he, hr, hc⟩ := ih (processTask o true now st t)
    refine ⟨?_, ?_, ?_, ?_⟩
    · rw [hs, hstep.1]
    · rw [he, hstep.2.1, List.filter_cons]
      by_cases hf : taskFails o t = true
      · simp only [hf, if_true, List.length_cons]
        omega
      · rw [Bool.not_eq_true] at hf
        simp only [hf, Bool.false_eq_true, if_false]
        omega
    · rw [hr, hstep.2.2.1, List.filterMap_cons]
      cases hm : taskErrMsg o t with
      | none => simp
      | some m => simp
    · rw [List.filter_cons]
      have hstep4 := hstep.2.2.2
      by_cases hf : taskFails o t = true
      · simp only [hf, if_true, if_false, Bool.not_true,
          Bool.false_eq_true, List.length_cons] at hstep4 ⊢
        omega
      · rw [Bool.not_eq_true] at hf
        simp only [hf, Bool.false_eq_true, if_false, if_true,
          Bool.not_false, List.length_cons] at hstep4 ⊢
        omega

/-- C1 (amended): with a reachable connector, the run over any task list
completes with `success = true`; every item whose processing fails in a
recorded way (lookup store error, validation failure, upsert store
error) contributes exactly its error message and one error count, while
all remaining items are still processed and are counted as synced or
updated; the three counts partition the batch.  (`force = true` disables
the staleness skip so that every item is processed.)  Embedding and
classification failures degrade gracefully and are not recorded. -/
theorem syncPlaybooks_per_item_errors (o : SyncOracles) (now : Nat)
    (tasks : List ClickUpTask) (table0 : List Row) (nextId0 : Nat) :
    ((syncPlaybooks o true now (.ok tasks) table0 nextId0).1.result.success
      = true) ∧
    ((syncPlaybooks o true now (.ok tasks) table0
      nextId0).1.result.error_count =
      (tasks.filter (fun t => taskFails o t)).length) ∧
    ((syncPlaybooks o true now (.ok tasks) table0 nextId0).1.result.errors
      = tasks.filterMap (fun t => taskErrMsg o t)) ∧
    ((syncPlaybooks o true now (.ok tasks) table0
        nextId0).1.result.synced_count +
      (syncPlaybooks o true now (.ok tasks) table0
        nextId0).1.result.updated_count =
      (tasks.filter (fun t => !taskFails o t)).length) ∧
    ((syncPlaybooks o true now (.ok tasks) table0
        nextId0).1.result.synced_count +
      (syncPlaybooks o true now (.ok tasks) table0
        nextId0).1.result.updated_count +
      (syncPlaybooks o true now (.ok tasks) table0
        nextId0).1.result.error_count = tasks.length) := by
  have h := processTask_foldl o now tasks
    ⟨table0, nextId0, initialSyncResult, [], []⟩
  obtain ⟨hs, he, hr, hc⟩ := h
  have hfst : (syncPlaybooks o true now (.ok tasks) table0 nextId0).1 =
      tasks.foldl (processTask o true now)
        ⟨table0, nextId0, initialSyncResult, [], []⟩ := rfl
  rw [hfst]
  refine ⟨hs, by rw [he]; simp [initialSyncResult],
    by rw [hr]; rfl, by rw [hc]; simp [initialSyncResult], ?_⟩
  rw [he, hc]
  have := filter_length_split (fun t => taskFails o t) tasks
  simp only [initialSyncResult]
  omega

/-- A Gemini oracle for the worked sync examples: every call succeeds. -/
def wSyncGemini : GeminiOracle where
  rawEmbed := fun _ => .ok [1]
  rawReason := fun _ _ _ _ => .ok "r"
  rawSuggest := fun _ => .ok ""
  rawCategorize := fun _ _ _ => .ok "Sales"

/-- Sync collaborators for the worked examples: the store never throws,
and every URL except the literal `not-a-url` is well-formed. -/
def wSyncOracle : SyncOracles where
  gemini := wSyncGemini
  urlValid := fun u => u != "not-a-url"
  lookupFail := fun _ => none
  insertFail := fun _ => none

/-- The spec's five-item batch; item #3 carries a malformed URL. -/
def wTasks : List ClickUpTask :=
  [⟨"t1", "Task One", "Alpha body.", "https://example.com/1", [], 5⟩,
   ⟨"t2", "Task Two", "Beta body.", "https://example.com/2", [], 5⟩,
   ⟨"t3", "Task Three", "Gamma body.", "not-a-url", [], 5⟩,
   ⟨"t4", "Task Four", "Delta body.", "https://example.com/4", [], 5⟩,
   ⟨"t5", "Task Five", "Epsilon body.", "https://example.com/5", [], 5⟩]

/-- Witness for C1: over the five-item batch where exactly item #3 fails
validation, the run completes with one recorded error referencing item
#3 and four items synced or updated. -/
theorem syncPlaybooks_per_item_errors_witness :
    (syncPlaybooks wSyncOracle true 100 (.ok wTasks) []
      1).1.result.error_count = 1 ∧
    (syncPlaybooks wSyncOracle true 100 (.ok wTasks) []
        1).1.result.synced_count +
      (syncPlaybooks wSyncOracle true 100 (.ok wTasks) []
        1).1.result.updated_count = 4 ∧
    (syncPlaybooks wSyncOracle true 100 (.ok wTasks) [] 1).1.result.errors
      = ["Validation failed for Task Three: Invalid URL"] ∧
    (syncPlaybooks wSyncOracle true 100 (.ok wTasks) [] 1).1.result.success
      = true := by
  have h := syncPlaybooks_per_item_errors wSyncOracle 100 wTasks [] 1
  refine ⟨?_, ?_, ?_, h.1⟩
  · rw [h.2.1]
    decide
  · rw [h.2.2.2.1]
    decide
  · rw [h.2.2.1]
    decide

/-- A Gemini oracle whose embedding endpoint is down. -/
def embedFailGemini : GeminiOracle where
  rawEmbed := fun _ => .error "embedding provider down"
  rawReason := fun _ _ _ _ => .ok "r"
  rawSuggest := fun _ => .ok ""
  rawCategorize := fun _ _ _ => .ok "Sales"

/-- Sync collaborators with a failing embedding provider and a healthy
store. -/
def embedFailSyncOracle : SyncOracles where
  gemini := embedFailGemini
  urlValid := fun _ => true
  lookupFail := fun _ => none
  insertFail := fun _ => none

/-- A single well-formed task. -/
def wEmbedFailTask : ClickUpTask :=
  ⟨"t1", "Task One", "Alpha body.", "https://example.com/1", [], 5⟩

/-- Counterexample for C1 as stated: an embedding-provider failure on an
item is not appended to the error list and does not increment the error
count — the provider call fails, yet the run records zero errors and
counts the item as synced (the item degrades to an embedding-less
upsert). -/
theorem sync_embedding_error_not_recorded :
    (generateEmbedding embedFailGemini
      (taskSearchableText wEmbedFailTask)).error.isSome = true ∧
    (syncPlaybooks embedFailSyncOracle true 100 (.ok [wEmbedFailTask]) []
      1).1.result.error_count = 0 ∧
    (syncPlaybooks embedFailSyncOracle true 100 (.ok [wEmbedFailTask]) []
      1).1.result.errors = [] ∧
    (syncPlaybooks embedFailSyncOracle true 100 (.ok [wEmbedFailTask]) []
      1).1.result.synced_count = 1 := by
  decide

/-- C7: an item whose entity already exists, with no forced refresh
requested and an external last-modified time not newer than the stored
`updated_at`, is a no-op — the whole synchronizer state (table, result
counts and the logs of embedding and classification requests) is left
exactly unchanged. -/
theorem processTask_stale_noop (o : SyncOracles) (now : Nat) (st : SyncSt)
    (task : ClickUpTask) (pb : Row)
    (hlk : o.lookupFail task = none)
    (hex : getPlaybookByClickUpId st.table task.id = some pb)
    (hstale : task.date_updated ≤ pb.updated_at) :
    processTask o false now st task = st := by
  have hskip : skipCheck false (getPlaybookByClickUpId st.table task.id)
      task = true := by
    rw [hex]
    unfold skipCheck
    simp [hstale]
  unfold processTask
  rw [hlk]
  simp only [hskip, if_true]

/-- The stored row of the C7 worked example, last updated at time 50. -/
def wStaleRow : Row where
  id := 3
  clickup_id := "T7"
  title := "Old"
  description := ""
  content := "body"
  category := "General"
  tags := []
  url := "https://example.com/7"
  embedding := none
  created_at := 10
  updated_at := 50

/-- The synchronizer state holding just that row. -/
def wStaleSt : SyncSt := ⟨[wStaleRow], 9, initialSyncResult, [], []⟩

/-- A task for the same entity, last modified at time 40 (not newer). -/
def wStaleTask : ClickUpTask :=
  ⟨"T7", "Old", "desc", "https://example.com/7", [], 40⟩

/-- Witness for C7: the stale task leaves the state untouched. -/
theorem processTask_stale_noop_witness :
    processTask wSyncOracle false 100 wStaleSt wStaleTask = wStaleSt :=
  processTask_stale_noop wSyncOracle 100 wStaleSt wStaleTask wStaleRow
    rfl rfl (by decide)

theorem processTask_success (o : SyncOracles) (force : Bool) (now : Nat)
    (st : SyncSt) (task : ClickUpTask) :
    (processTask o force now st task).result.success =
      st.result.success := by
  unfold processTask
  cases o.lookupFail task with
  | some msg => rfl
  | none =>
    by_cases hskip : skipCheck force (getPlaybookByClickUpId st.table
      task.id) task = true
    · simp only [hskip, if_true]
    · rw [Bool.not_eq_true] at hskip
      simp only [hskip, Bool.false_eq_true, if_false]
      cases validatePlaybook o.urlValid (taskPlaybook o task) with
      | error m => rfl
      | ok u =>
        cases o.insertFail task with
        | some msg => rfl
        | none =>
          cases getPlaybookByClickUpId st.table task.id with
          | some pb => rfl
          | none => rfl

theorem foldl_success (o : SyncOracles) (force : Bool) (now : Nat) :
    ∀ (tasks : List ClickUpTask) (st : SyncSt),
      (tasks.foldl (processTask o force now) st).result.success =
        st.result.success := by
  intro tasks
  induction tasks with
  | nil => intro st; rfl
  | cons t rest ih =>
    intro st
    rw [List.foldl_cons, ih (processTask o force now st t),
      processTask_success]

/-- C8: an unreachable Source Connector (the initial fetch fails) aborts
the run — the returned `SyncResult` has `success = false` with the
failure message in its error list, and the recorded sync log is marked
`failed`; whereas any run whose fetch succeeds is reported with
`success = true` (per-item failures never mark the run failed) and its
log is marked `completed`. -/
theorem syncPlaybooks_connector_failure (o : SyncOracles) (force : Bool)
    (now : Nat) (table0 : List Row) (nextId0 : Nat) :
    (∀ e,
      (syncPlaybooks o force now (.error e) table0
        nextId0).1.result.success = false ∧
      (syncPlaybooks o force now (.error e) table0 nextId0).1.result.errors
        = ["Sync failed: " ++ e] ∧
      (syncPlaybooks o force now (.error e) table0 nextId0).2 =
        [("failed",
          (syncPlaybooks o force now (.error e) table0 nextId0).1.result)]) ∧
    (∀ tasks,
      (syncPlaybooks o force now (.ok tasks) table0
        nextId0).1.result.success = true ∧
      (syncPlaybooks o force now (.ok tasks) table0 nextId0).2 =
        [("completed",
          (syncPlaybooks o force now (.ok tasks) table0
            nextId0).1.result)]) := by
  constructor
  · intro e
    refine ⟨rfl, rfl, rfl⟩
  · intro tasks
    have hs := foldl_success o force now tasks
      ⟨table0, nextId0, initialSyncResult, [], []⟩
    have hfst : (syncPlaybooks o force now (.ok tasks) table0 nextId0).1 =
        tasks.foldl (processTask o force now)
          ⟨table0, nextId0, initialSyncResult, [], []⟩ := rfl
    constructor
    · rw [hfst, hs]
      rfl
    · show (syncLogStatus (tasks.foldl (processTask o force now)
          ⟨table0, nextId0, initialSyncResult, [], []⟩).result, _) :: _ = _
      unfold syncLogStatus
      rw [hs]
      rfl

/-- Witness for C8: a concrete unreachable-connector run is reported
failed with its message logged as `failed`, and a concrete empty
successful fetch is reported `completed` with `success = true`. -/
theorem syncPlaybooks_connector_failure_witness :
    (syncPlaybooks wSyncOracle false 100 (.error "ECONNREFUSED") []
      1).1.result.success = false ∧
    (syncPlaybooks wSyncOracle false 100 (.error "ECONNREFUSED") []
      1).1.result.errors = ["Sync failed: ECONNREFUSED"] ∧
    (syncPlaybooks wSyncOracle false 100 (.error "ECONNREFUSED") [] 1).2 =
      [("failed",
        (syncPlaybooks wSyncOracle false 100 (.error "ECONNREFUSED") []
          1).1.result)] ∧
    (syncPlaybooks wSyncOracle false 100 (.ok []) [] 1).1.result.success
      = true := by
  have h := syncPlaybooks_connector_failure wSyncOracle false 100 [] 1
  exact ⟨(h.1 "ECONNREFUSED").1, (h.1 "ECONNREFUSED").2.1,
    (h.1 "ECONNREFUSED").2.2, (h.2 []).1⟩

theorem insertPlaybook_embedding_field (p : PlaybookInput)
    (now freshId : Nat) (table : List Row) :
    ∀ r ∈ insertPlaybook p now freshId table,
      r.clickup_id = p.clickup_id → r.embedding = p.embedding := by
  intro r hr hid
  unfold insertPlaybook at hr
  by_cases hex : table.any (fun r => r.clickup_id = p.clickup_id) = true
  · rw [if_pos hex] at hr
    obtain ⟨a, ha, rfl⟩ := List.mem_map.mp hr
    by_cases hak : a.clickup_id = p.clickup_id
    · rw [if_pos hak]
    · rw [if_neg hak] at hid ⊢
      exact absurd hid hak
  · rw [if_neg hex] at hr
    rw [List.mem_append] at hr
    rcases hr with hr | hr
    · exact absurd (List.any_eq_true.mpr ⟨r, hr, by simpa using hid⟩) hex
    · simp only [List.mem_singleton] at hr
      subst hr
      rfl

/-- C6: a failing or empty query embedding aborts the whole search with
an error (no result list); the same provider failure during sync does
not fail the item — the item is still counted and upserted, with its
stored embedding absent. -/
theorem embedding_unavailable (o : GeminiOracle)
    (dist : List ℚ → List ℚ → ℚ) (table : List Row) (query : String)
    (category : Option String) (limit : Nat) (threshold : ℚ) (now : Nat)
    (embedC : CacheMap (List ℚ))
    (searchC : CacheMap (List PlaybookSearchResult))
    (so : SyncOracles) (snow : Nat) (st : SyncSt) (task : ClickUpTask) :
    ((cacheGet searchC (searchKey query category limit threshold) now).1
        = none →
      (cacheGet embedC ("embedding:" ++ query) now).1 = none →
      ((generateEmbedding o query).error.isSome = true ∨
        (generateEmbedding o query).embedding = []) →
      performSemanticSearch o dist table query category limit threshold
        now embedC searchC =
        .error "Failed to generate embedding for search query") ∧
    (so.lookupFail task = none →
      (generateEmbedding so.gemini (taskSearchableText task)).embedding
        = [] →
      (taskValidation so task).toBool = true →
      so.insertFail task = none →
      (processTask so true snow st task).result.error_count =
        st.result.error_count ∧
      (processTask so true snow st task).result.errors =
        st.result.errors ∧
      (processTask so true snow st task).result.synced_count +
        (processTask so true snow st task).result.updated_count =
        st.result.synced_count + st.result.updated_count + 1 ∧
      (∀ r ∈ (processTask so true snow st task).table,
        r.clickup_id = task.id → r.embedding = none)) := by
  constructor
  · intro hmiss hmissE hfail
    have hq : getQueryEmbedding o query now embedC =
        .error "Failed to generate embedding for search query" := by
      unfold getQueryEmbedding
      simp only []
      rw [hmissE]
      have hcond : ((generateEmbedding o query).error.isSome ||
          (generateEmbedding o query).embedding.isEmpty) = true := by
        rcases hfail with hf | hf
        · rw [hf]
          rfl
        · rw [hf]
          simp
      rw [if_pos hcond]
    unfold performSemanticSearch
    simp only []
    rw [hmiss, hq]
  · intro hlk hemb hval hins
    have hpb : (taskPlaybook so task).embedding = none := by
      unfold taskPlaybook
      rw [hemb]
      rfl
    cases hv : validatePlaybook so.urlValid (taskPlaybook so task) with
    | error m =>
      exfalso
      unfold taskValidation at hval
      rw [hv] at hval
      simp [Except.toBool] at hval
    | ok u =>
      cases u
      have hpt : processTask so true snow st task =
          match getPlaybookByClickUpId st.table task.id with
          | some _ =>
            { logCalls st task with
              table := insertPlaybook (taskPlaybook so task) snow
                st.nextId st.table
              nextId := st.nextId + 1
              result := { st.result with
                updated_count := st.result.updated_count + 1 } }
          | none =>
            { logCalls st task with
              table := insertPlaybook (taskPlaybook so task) snow
                st.nextId st.table
              nextId := st.nextId + 1
              result := { st.result with
                synced_count := st.result.synced_count + 1 } } := by
        unfold processTask
        rw [hlk]
        simp only [skipCheck_force, Bool.false_eq_true, if_false]
        rw [hv, hins]
        cases getPlaybookByClickUpId st.table task.id with
        | some pb => rfl
        | none => rfl
      cases hex : getPlaybookByClickUpId st.table task.id with
      | some pb =>
        rw [hpt, hex]
        refine ⟨rfl, rfl, by simp [logCalls]; omega, ?_⟩
        intro r hr hid
        have := insertPlaybook_embedding_field (taskPlaybook so task)
          snow st.nextId st.table r hr hid
        rw [this, hpb]
      | none =>
        rw [hpt, hex]
        refine ⟨rfl, rfl, by simp [logCalls]; omega, ?_⟩
        intro r hr hid
        have := insertPlaybook_embedding_field (taskPlaybook so task)
          snow st.nextId st.table r hr hid
        rw [this, hpb]

/-- The initial synchronizer state of the C6 worked example. -/
def wEmptySt : SyncSt := ⟨[], 1, initialSyncResult, [], []⟩

/-- Witness for C6: with the embedding provider down, a concrete search
fails as a whole with the embedding error, while a concrete sync of one
item records no error, counts the item as synced, and stores it with no
embedding. -/
theorem embedding_unavailable_witness :
    performSemanticSearch embedFailGemini zeroDist [] "q" none 5 0 0
      (fun _ => none) (fun _ => none) =
      .error "Failed to generate embedding for search query" ∧
    (processTask embedFailSyncOracle true 100 wEmptySt
      wEmbedFailTask).result.error_count =
      wEmptySt.result.error_count ∧
    (processTask embedFailSyncOracle true 100 wEmptySt
      wEmbedFailTask).result.synced_count +
      (processTask embedFailSyncOracle true 100 wEmptySt
        wEmbedFailTask).result.updated_count =
      wEmptySt.result.synced_count + wEmptySt.result.updated_count + 1 ∧
    (∀ r ∈ (processTask embedFailSyncOracle true 100 wEmptySt
      wEmbedFailTask).table, r.clickup_id = "t1" → r.embedding = none) := by
  have h := embedding_unavailable embedFailGemini zeroDist [] "q" none 5
    0 0 (fun _ => none) (fun _ => none) embedFailSyncOracle 100 wEmptySt
    wEmbedFailTask
  have h2 := h.2 rfl rfl (by decide) rfl
  exact ⟨h.1 rfl rfl (Or.inl rfl), h2.1, h2.2.2.1, h2.2.2.2⟩

/-! ### Cached embedding endpoint (`src/api/ai/embedding.ts`) -/

theorem cacheGet_some (m : CacheMap V) (key : String) (now : Nat) (w : V)
    (h : (cacheGet m key now).1 = some w) :
    (cacheGet m key now).2 = m ∧
    ∃ e : CacheEntry V, m key = some e ∧ e.value = w := by
  cases hm : m key with
  | none =>
    unfold cacheGet at h
    rw [hm] at h
    simp at h
  | some e =>
    unfold cacheGet at h ⊢
    rw [hm] at h ⊢
    simp only [] at h ⊢
    by_cases hexp : now > e.expiresAt
    · rw [if_pos hexp] at h
      simp at h
    · rw [if_neg hexp] at h ⊢
      simp only [] at h
      cases h
      exact ⟨rfl, e, rfl, rfl⟩

/-- The provider-calling path of the endpoint's `generateEmbedding`
(after a cache miss or with caching disabled): throw on a provider
error, throw on an empty vector, cache when enabled, return.  The third
component counts the provider invocations made (here one). -/
def apiGenerateEmbeddingMiss (o : GeminiOracle) (text : String)
    (useCache : Bool) (now : Nat) (embedC : CacheMap (List ℚ))
    (key : String) :
    Except String (List ℚ × CacheMap (List ℚ) × Nat) :=
  let r := generateEmbedding o text
  match r.error with
  | some e => .error ("Embedding generation failed: " ++ e)
  | none =>
    if r.embedding.length = 0 then
      .error "Empty embedding returned from AI service"
    else
      .ok (r.embedding,
        (if useCache then cacheSet embedC key r.embedding now 3600000
         else embedC), 1)

/-- `generateEmbedding` from `src/api/ai/embedding.ts`: cache lookup
under `embedding:${text}` when enabled, else call the provider.  Returns
the vector, the updated embedding cache and the number of provider
invocations. -/
def apiGenerateEmbedding (o : GeminiOracle) (text : String)
    (useCache : Bool) (now : Nat) (embedC : CacheMap (List ℚ)) :
    Except String (List ℚ × CacheMap (List ℚ) × Nat) :=
  match useCache with
  | true =>
    let g := cacheGet embedC ("embedding:" ++ text) now
    match g.1 with
    | some v => .ok (v, g.2, 0)
    | none =>
      apiGenerateEmbeddingMiss o text true now g.2 ("embedding:" ++ text)
  | false =>
    apiGenerateEmbeddingMiss o text false now embedC
      ("embedding:" ++ text)

theorem apiGenerateEmbedding_stores (o : GeminiOracle) (text : String)
    (now1 : Nat) (c0 c1 : CacheMap (List ℚ)) (v : List ℚ) (n1 : Nat)
    (h1 : apiGenerateEmbedding o text true now1 c0 = .ok (v, c1, n1)) :
    (∃ e : CacheEntry (List ℚ),
      c1 ("embedding:" ++ text) = some e ∧ e.value = v) ∧ n1 ≤ 1 := by
  unfold apiGenerateEmbedding at h1
  simp only [] at h1
  cases hg : (cacheGet c0 ("embedding:" ++ text) now1).1 with
  | some w =>
    rw [hg] at h1
    simp only [Except.ok.injEq, Prod.mk.injEq] at h1
    obtain ⟨hv, hc, hn⟩ := h1
    obtain ⟨hid, e, hme, hev⟩ :=
      cacheGet_some c0 ("embedding:" ++ text) now1 w hg
    subst hv
    refine ⟨⟨e, ?_, hev⟩, by omega⟩
    rw [← hc, hid, hme]
  | none =>
    rw [hg] at h1
    unfold apiGenerateEmbeddingMiss at h1
    simp only [] at h1
    cases hre : (generateEmbedding o text).error with
    | some e =>
      rw [hre] at h1
      simp at h1
    | none =>
      rw [hre] at h1
      by_cases hlen : (generateEmbedding o text).embedding.length = 0
      · rw [if_pos hlen] at h1
        simp at h1
      · rw [if_neg hlen] at h1
        simp only [if_true, Except.ok.injEq, Prod.mk.injEq] at h1
        obtain ⟨hv, hc, hn⟩ := h1
        refine ⟨⟨⟨(generateEmbedding o text).embedding, now1 + 3600000⟩,
          ?_, hv⟩, by omega⟩
        rw [← hc]
        simp [cacheSet]

/-- C5: with caching enabled, a second embedding computation for the
same text, made while the cache entry written or read by the first
(successful) computation is unexpired, is a pure cache hit: it invokes
the provider zero times, leaves the cache untouched, and returns exactly
the vector the first computation returned; across both computations the
provider is invoked at most once. -/
theorem apiGenerateEmbedding_cached_once (o : GeminiOracle)
    (text : String) (now1 now2 : Nat) (c0 c1 : CacheMap (List ℚ))
    (v : List ℚ) (n1 : Nat)
    (h1 : apiGenerateEmbedding o text true now1 c0 = .ok (v, c1, n1))
    (hfresh : freshAt (c1 ("embedding:" ++ text)) now2 = true) :
    apiGenerateEmbedding o text true now2 c1 = .ok (v, c1, 0) ∧
    n1 + 0 ≤ 1 := by
  obtain ⟨⟨e, hc1, hev⟩, hn⟩ :=
    apiGenerateEmbedding_stores o text now1 c0 c1 v n1 h1
  constructor
  · unfold apiGenerateEmbedding
    simp only []
    rw [cacheGet_hit c1 ("embedding:" ++ text) now2 e hc1
      (by rw [hc1] at hfresh ⊢; exact hfresh)]
    rw [hev]
  · omega

/-- Witness for C5: a concrete first computation on an empty cache calls
the provider once and caches the vector; the second computation within
the hour is a pure hit returning the same vector with zero provider
calls. -/
theorem apiGenerateEmbedding_cached_once_witness :
    apiGenerateEmbedding happyOracle "hello" true 1000
      (cacheSet (fun _ => none) ("embedding:" ++ "hello") [1] 0 3600000) =
      .ok ([1],
        cacheSet (fun _ => none) ("embedding:" ++ "hello") [1] 0 3600000,
        0) ∧
    1 + 0 ≤ 1 :=
  apiGenerateEmbedding_cached_once happyOracle "hello" 0 1000
    (fun _ => none)
    (cacheSet (fun _ => none) ("embedding:" ++ "hello") [1] 0 3600000)
    [1] 1 rfl (by decide)

/-! ### Recommendations (`src/api/ai/recommendations.ts`) -/

/-- The payload cached and returned by `generateRecommendations`. -/
structure RecResult where
  recommendations : List PlaybookSearchResult
  suggestions : List String
  query_analysis : String
deriving DecidableEq

/-- The recommendation cache key
`recommendations:${query}:${category || 'all'}:${limit}` — note it does
not mention `include_reasoning` or `user_context`. -/
def recKey (query : String) (category : Option String) (limit : Nat) :
    String :=
  "recommendations:" ++ query ++ ":" ++
    (match category with
     | some c => c
     | none => "all") ++ ":" ++ toString limit

/-- The query-analysis prompt built by `generateQueryAnalysis`; the
user context contributes only its optional `role`. -/
def analysisPrompt (query : String) (role : Option String) : String :=
  "Analyze this search query and provide a brief summary of what the " ++
    "user is likely looking for: " ++ query ++
    (match role with
     | some r => " User role: " ++ r
     | none => "")

/-- `generateQueryAnalysis`: the LLM reasoning call over the built
prompt; the reasoning client already falls back internally, so this is
total. -/
def generateQueryAnalysis (o : GeminiOracle) (query : String)
    (role : Option String) : String :=
  generateRecommendationReasoning o query "Query Analysis"
    (analysisPrompt query role) "Analysis"

/-- `generateRecommendations` from `src/api/ai/recommendations.ts`:
whole-result cache lookup under `recKey`, direct (uncached) query
embedding that fails the operation when unusable, vector search with
`min(limit * 2, 20)` at threshold `0.6`, best-effort suggestions and
query analysis, slice to `limit`, optional per-result reasoning, cache
write.  `role` is the `user_context.role` field, the only part of
`user_context` the code reads. -/
def generateRecommendations (o : GeminiOracle)
    (dist : List ℚ → List ℚ → ℚ) (table : List Row) (query : String)
    (role : Option String) (limit : Nat) (includeReasoning : Bool)
    (category : Option String) (now : Nat) (recC : CacheMap RecResult) :
    Except String (RecResult × CacheMap RecResult) :=
  let key := recKey query category limit
  let g := cacheGet recC key now
  match g.1 with
  | some v => .ok (v, g.2)
  | none =>
    let er := generateEmbedding o query
    if er.error.isSome || er.embedding.isEmpty then
      .error "Failed to generate embedding for recommendations"
    else
      let searchResults := searchPlaybooksByEmbedding dist table
        er.embedding category (min (limit * 2) 20) (6 / 10)
      let suggestions := generateSearchSuggestions o query
      let queryAnalysis := generateQueryAnalysis o query role
      let recommendations0 := searchResults.take limit
      let recommendations :=
        if includeReasoning then enhanceResults o query recommendations0
        else recommendations0
      let result : RecResult :=
        ⟨recommendations, suggestions, queryAnalysis⟩
      .ok (result, cacheSet g.2 key result now 300000)

theorem generateRecommendations_stores (o : GeminiOracle)
    (dist : List ℚ → List ℚ → ℚ) (table : List Row) (query : String)
    (role : Option String) (limit : Nat) (includeReasoning : Bool)
    (category : Option String) (now : Nat) (c0 c1 : CacheMap RecResult)
    (res : RecResult)
    (h1 : generateRecommendations o dist table query role limit
      includeReasoning category now c0 = .ok (res, c1)) :
    ∃ e : CacheEntry RecResult,
      c1 (recKey query category limit) = some e ∧ e.value = res := by
  unfold generateRecommendations at h1
  simp only [] at h1
  cases hg : (cacheGet c0 (recKey query category limit) now).1 with
  | some v =>
    rw [hg] at h1
    simp only [Except.ok.injEq, Prod.mk.injEq] at h1
    obtain ⟨hv, hc⟩ := h1
    obtain ⟨hid, e, hme, hev⟩ :=
      cacheGet_some c0 (recKey query category limit) now v hg
    refine ⟨e, ?_, by rw [hev, hv]⟩
    rw [← hc, hid, hme]
  | none =>
    rw [hg] at h1
    by_cases hfail : ((generateEmbedding o query).error.isSome ||
        (generateEmbedding o query).embedding.isEmpty) = true
    · rw [if_pos hfail] at h1
      simp at h1
    · rw [if_neg hfail] at h1
      simp only [Except.ok.injEq, Prod.mk.injEq] at h1
      obtain ⟨hv, hc⟩ := h1
      refine ⟨⟨res, now + 300000⟩, ?_, rfl⟩
      rw [← hc, ← hv]
      simp [cacheSet]

/-- C10: the recommendation cache is keyed only by (query, category,
limit).  Once a run has produced and cached a result for a triple, any
later run with the same triple whose cache entry is unexpired returns
that cached result unchanged — regardless of its `include_reasoning`
flag, its `user_context`, and even of the collaborators' behavior on the
second run — and leaves the cache untouched. -/
theorem generateRecommendations_cache_key (o1 o2 : GeminiOracle)
    (dist1 dist2 : List ℚ → List ℚ → ℚ) (table1 table2 : List Row)
    (query : String) (role1 role2 : Option String) (limit : Nat)
    (r1 r2 : Bool) (category : Option String) (now1 now2 : Nat)
    (c0 c1 : CacheMap RecResult) (res1 : RecResult)
    (h1 : generateRecommendations o1 dist1 table1 query role1 limit r1
      category now1 c0 = .ok (res1, c1))
    (hfresh : freshAt (c1 (recKey query category limit)) now2 = true) :
    generateRecommendations o2 dist2 table2 query role2 limit r2
      category now2 c1 = .ok (res1, c1) := by
  obtain ⟨e, hc1, hev⟩ := generateRecommendations_stores o1 dist1 table1
    query role1 limit r1 category now1 c0 c1 res1 h1
  unfold generateRecommendations
  simp only []
  rw [cacheGet_hit c1 (recKey query category limit) now2 e hc1
    (by rw [hc1] at hfresh ⊢; exact hfresh)]
  rw [hev]

/-- A concrete cached recommendation payload. -/
def wRecResult : RecResult := ⟨[], ["alt"], "analysis"⟩

/-- A recommendation cache holding that payload for the triple
`("q", no category, limit 5)`, expiring at time 100. -/
def wRecCache : CacheMap RecResult :=
  fun k => if k = recKey "q" none 5 then some ⟨wRecResult, 100⟩ else none

/-- Witness for C10: starting from that cache, a run with
`include_reasoning = true` and a user context hits the cache; a second
run with `include_reasoning = false`, no user context, a different
oracle and a different table returns the identical cached result. -/
theorem generateRecommendations_cache_key_witness :
    generateRecommendations bogusOracle zeroDist [wRow] "q" none 5 false
      none 50 wRecCache = .ok (wRecResult, wRecCache) :=
  generateRecommendations_cache_key happyOracle bogusOracle zeroDist
    zeroDist [] [wRow] "q" (some "pm") none 5 true false none 0 50
    wRecCache wRecCache wRecResult rfl (by decide)
